import Mathlib

/-!
Verification of the access-control and notification subsystem of lovable-lab-tools.

The definitions below are a shallow embedding of the TypeScript/SQL source:
database tables become lists of rows inside a `Store`, Supabase calls become
pure state-passing functions, thrown errors become `Except.error`, and the
clock and generated row ids are passed explicitly (`now`, `Store.nextId`).
Each definition carries a comment naming the source location it embeds.
-/

/-- Access levels, from `src/src/types/projectAccess.ts` (`'view' | 'edit'`). -/
inductive AccessLevel where
  | view
  | edit
deriving DecidableEq, Repr

/-- A row of the `profiles` table (columns used by the embedded code:
`id`, `username`, `full_name`, `email`; other columns are never read). -/
structure Profile where
  id : Nat
  username : String
  full_name : Option String
  email : String
deriving DecidableEq, Repr

/-- A row of the `projects` table (columns used by the embedded code:
`id`, `name`, `user_id` (the owner), `is_public`). -/
structure ProjectRow where
  id : Nat
  name : String
  user_id : Nat
  is_public : Bool
deriving DecidableEq, Repr

/-- A row of the `project_access` table (see `src/unnamed/part_003`). -/
structure AccessRow where
  id : Nat
  project_id : Nat
  user_id : Nat
  access_level : AccessLevel
  created_at : Nat
  updated_at : Nat
deriving DecidableEq, Repr

/-- A row of the `comments` table (columns used: `id`, `content`). -/
structure CommentRow where
  id : Nat
  content : String
deriving DecidableEq, Repr

/-- A row of the `teams` table (columns used: `id`, `name`). -/
structure TeamRow where
  id : Nat
  name : String
deriving DecidableEq, Repr

/-- A row of the `notifications` table (see `src/unnamed/part_000`):
`metadata` is the JSONB payload, embedded as string key/value pairs. -/
structure NotificationRow where
  id : Nat
  user_id : Nat
  type : String
  content : String
  metadata : List (String × String)
  read : Bool
  deleted_at : Option Nat
  created_at : Nat
deriving DecidableEq, Repr

/-- A row of the `user_notification_preferences` table (see `src/unnamed/part_000`). -/
structure PrefRow where
  user_id : Nat
  email_notifications : Bool
  in_app_notifications : Bool
  project_sharing : Bool
  comments : Bool
  team_invitations : Bool
  system_announcements : Bool
deriving DecidableEq, Repr

/-- The datastore: one list of rows per table, plus the id generator that models
the database-side `uuid_generate_v4()` defaults. -/
structure Store where
  profiles : List Profile
  projects : List ProjectRow
  project_access : List AccessRow
  comments : List CommentRow
  teams : List TeamRow
  notifications : List NotificationRow
  user_notification_preferences : List PrefRow
  nextId : Nat
deriving DecidableEq

/-- A store with every table empty, used to build concrete test stores. -/
def emptyStore : Store := ⟨[], [], [], [], [], [], [], 0⟩

/-- Models PostgREST `.single()`: succeeds exactly when the query returned one
row; zero rows or several rows are an error (`none`). -/
def single? {α : Type} : List α → Option α
  | [a] => some a
  | _ => none

/-- Result object of `addProjectAccess`: `{ updated, added }`. -/
structure UpsertResult where
  updated : Bool
  added : Bool
deriving DecidableEq, Repr

/-- Embeds `addProjectAccess` from `src/src/utils/projectAccess.ts` (lines 11-65):
resolve the grantee email to a profile via `profiles.username` (`.single()`, error
if it does not resolve), look up an existing `project_access` row for the
(project, user) pair, update its level if present, insert a new row otherwise.
There is no check that the grantee differs from the project owner. -/
def addProjectAccess (s : Store) (projectId : Nat) (userEmail : String)
    (accessLevel : AccessLevel) (now : Nat) :
    Except String (UpsertResult × Store) :=
  match single? (s.profiles.filter (fun p => p.username == userEmail)) with
  | none => .error "User not found. Please make sure the email is correct."
  | some userData =>
    let userId := userData.id
    let existingAccess := s.project_access.filter
      (fun a => a.project_id == projectId && a.user_id == userId)
    match existingAccess with
    | [] =>
      .ok (⟨false, true⟩,
        { s with
          project_access := s.project_access ++
            [⟨s.nextId, projectId, userId, accessLevel, now, now⟩],
          nextId := s.nextId + 1 })
    | a0 :: _ =>
      .ok (⟨true, false⟩,
        { s with
          project_access := s.project_access.map (fun a =>
            if a.id == a0.id then
              { a with access_level := accessLevel, updated_at := now }
            else a) })

/-- Embeds `removeProjectAccess` from `src/src/utils/projectAccess.ts` (lines 71-80):
delete the `project_access` rows whose id matches; deleting zero rows is not an
error, and the function returns `true` whenever the delete did not error. -/
def removeProjectAccess (s : Store) (accessId : Nat) : Bool × Store :=
  (true,
    { s with project_access := s.project_access.filter (fun a => !(a.id == accessId)) })

/-- Embeds the SQL function `check_project_access(p_project_id, p_user_id)` from
`src/docs/technical/supabase/edge-function-notification-implementation.md`
(lines 648-666): `EXISTS` over `projects` where the row matches the id and the
caller is the owner, or the project is public, or a `project_access` row exists
for the pair. -/
def check_project_access (s : Store) (p_project_id p_user_id : Nat) : Bool :=
  s.projects.any (fun p =>
    p.id == p_project_id &&
      (p.user_id == p_user_id || p.is_public ||
        s.project_access.any (fun pa =>
          pa.project_id == p_project_id && pa.user_id == p_user_id)))

/-- Embeds `sendEmailNotification` from
`src/docs/technical/supabase/edge-function-notification-implementation.md`
(lines 289-325): the email service call; on a non-ok response it THROWS
(`throw new Error('Failed to send email: ...')`). `emailOk` models the
response status per destination address; `toAddr` is the source's `to`. -/
def sendEmailNotification (emailOk : String → Bool) (toAddr subject body : String) :
    Except String Bool :=
  if emailOk toAddr then .ok true
  else .error ("Failed to send email: " ++ toAddr ++ " " ++ subject ++ " " ++ body)

/-- Payload of a `project_shared` dispatch in the edge-function doc:
`{ projectId, recipientUserId, senderUserId, accessLevel }`. -/
structure SharedEventData where
  projectId : Nat
  recipientUserId : Nat
  senderUserId : Nat
  accessLevel : String
deriving DecidableEq, Repr

/-- Embeds `handleProjectSharedNotification` from
`src/docs/technical/supabase/edge-function-notification-implementation.md`
(lines 97-147): look up project, sender and recipient (`.single()`, a failed
lookup crashes the handler), insert the notification row, then call
`sendEmailNotification` with NO try/catch, so an email failure propagates out
of the handler while the inserted row stays in the store. The third component
lists the email addresses the handler attempted. -/
def handleProjectSharedNotification (s : Store) (emailOk : String → Bool)
    (data : SharedEventData) (now : Nat) :
    Except String NotificationRow × Store × List String :=
  match single? (s.projects.filter (fun p => p.id == data.projectId)) with
  | none => (.error "project lookup failed", s, [])
  | some project =>
  match single? (s.profiles.filter (fun p => p.id == data.senderUserId)) with
  | none => (.error "sender profile lookup failed", s, [])
  | some sender =>
  match single? (s.profiles.filter (fun p => p.id == data.recipientUserId)) with
  | none => (.error "recipient profile lookup failed", s, [])
  | some recipient =>
    let content := sender.username ++ " has shared \"" ++ project.name ++
      "\" with you with " ++ data.accessLevel ++ " access."
    let row : NotificationRow :=
      ⟨s.nextId, data.recipientUserId, "project_shared", content,
        [("project_id", toString data.projectId),
         ("sender_id", toString data.senderUserId),
         ("access_level", data.accessLevel)],
        false, none, now⟩
    let s1 := { s with notifications := s.notifications ++ [row], nextId := s.nextId + 1 }
    match sendEmailNotification emailOk recipient.email
        (sender.username ++ " shared a project with you")
        (sender.username ++ " has shared the project \"" ++ project.name ++
          "\" with you with " ++ data.accessLevel ++ " access. Log in to view it.") with
    | .ok _ => (.ok row, s1, [recipient.email])
    | .error e => (.error e, s1, [recipient.email])

/-- Payload of a `comment_added` dispatch in the edge-function doc:
`{ projectId, commentId, commentorUserId }`. -/
structure CommentEventData where
  projectId : Nat
  commentId : Nat
  commentorUserId : Nat
deriving DecidableEq, Repr

/-- The per-recipient insert loop of `handleCommentAddedNotification`
(`notifyUserIds.map(userId => supabaseClient.from('notifications').insert(...))`):
appends one row per user id, ids drawn from `Store.nextId`. -/
def insertNotificationRows (s : Store) (uids : List Nat) (ty content : String)
    (metadata : List (String × String)) (now : Nat) : Store :=
  match uids with
  | [] => s
  | u :: rest =>
    insertNotificationRows
      { s with
        notifications := s.notifications ++ [⟨s.nextId, u, ty, content, metadata, false, none, now⟩],
        nextId := s.nextId + 1 }
      rest ty content metadata now

/-- Embeds `handleCommentAddedNotification` from
`src/docs/technical/supabase/edge-function-notification-implementation.md`
(lines 154-225): recipients are `[project.user_id, ...projectAccess.user_ids]`
filtered by `id !== commentorUserId`; one notification row is inserted per
recipient, then emails are sent to the profiles whose id is among the
recipients (`Promise.all`, so one failing email makes the handler throw after
every insert has already happened). -/
def handleCommentAddedNotification (s : Store) (emailOk : String → Bool)
    (data : CommentEventData) (now : Nat) :
    Except String Nat × Store × List String :=
  match single? (s.projects.filter (fun p => p.id == data.projectId)) with
  | none => (.error "project lookup failed", s, [])
  | some project =>
  match single? (s.comments.filter (fun c => c.id == data.commentId)) with
  | none => (.error "comment lookup failed", s, [])
  | some comment =>
  match single? (s.profiles.filter (fun p => p.id == data.commentorUserId)) with
  | none => (.error "commentor profile lookup failed", s, [])
  | some commentor =>
    let projectAccess := s.project_access.filter (fun a => a.project_id == data.projectId)
    let notifyUserIds :=
      (project.user_id :: projectAccess.map (fun a => a.user_id)).filter
        (fun i => !(i == data.commentorUserId))
    let preview :=
      if comment.content.length > 50 then comment.content.take 50 ++ "..." else comment.content
    let content := commentor.username ++ " commented on \"" ++ project.name ++
      "\": \"" ++ preview ++ "\""
    let s1 := insertNotificationRows s notifyUserIds "comment_added" content
      [("project_id", toString data.projectId),
       ("comment_id", toString data.commentId),
       ("commentor_id", toString data.commentorUserId)] now
    let users := s.profiles.filter (fun p => notifyUserIds.contains p.id)
    let emails := users.map (fun u => u.email)
    if users.all (fun u => emailOk u.email) then
      (.ok notifyUserIds.length, s1, emails)
    else
      (.error "Failed to send email", s1, emails)

/-- Models the JavaScript expression `a || b` on a nullable string: `null`,
`undefined` and the empty string are falsy (used by
`sharerData.full_name || sharerData.username` in
`src/docs/technical/supabase/edge-functions-setup.md`). -/
def jsOr : Option String → String → String
  | none, b => b
  | some a, b => if a = "" then b else a

/-- Drops the first `'_'` of a character list, leaving the rest unchanged. -/
def replaceFirstUnderscoreAux : List Char → List Char
  | [] => []
  | c :: cs => if c = '_' then cs else c :: replaceFirstUnderscoreAux cs

/-- Models the JavaScript expression `type.replace('_', '')` from
`src/unnamed/part_000` (line 133): with a string pattern, `String.replace`
removes only the FIRST underscore, so `'project_shared'` becomes
`'projectshared'`, not `'projectshared'` with all underscores gone. -/
def jsReplaceFirstUnderscore (s : String) : String :=
  String.mk (replaceFirstUnderscoreAux s.data)

/-- Models the JavaScript dynamic property access `userPrefs[key]` from
`src/unnamed/part_000` (line 133): a key naming one of the six boolean columns
of `user_notification_preferences` yields its value, any other key yields
`undefined` (`none`). -/
def prefsLookup (p : PrefRow) (key : String) : Option Bool :=
  if key = "email_notifications" then some p.email_notifications
  else if key = "in_app_notifications" then some p.in_app_notifications
  else if key = "project_sharing" then some p.project_sharing
  else if key = "comments" then some p.comments
  else if key = "team_invitations" then some p.team_invitations
  else if key = "system_announcements" then some p.system_announcements
  else none

/-- JavaScript truthiness of `userPrefs[key]`: `undefined` is falsy. -/
def jsTruthy : Option Bool → Bool
  | none => false
  | some b => b

/-- The preference-resolution step of `processNotification` in
`src/unnamed/part_000` (lines 110-130): `.single()` on
`user_notification_preferences`; a missing row (PGRST116) falls back to the
all-enabled default object, and nothing is written back. The fallback object in
the source has no `user_id` property; the embedding fills the queried id. -/
def getUserPrefs (s : Store) (userId : Nat) : PrefRow :=
  match single? (s.user_notification_preferences.filter (fun r => r.user_id == userId)) with
  | some row => row
  | none => ⟨userId, true, true, true, true, true, true⟩

/-- The dynamic `data` record of a dispatch payload in `src/unnamed/part_000`;
absent properties are `undefined` (`none`). -/
structure EventData where
  projectId : Option Nat
  sharedById : Option Nat
  commentId : Option Nat
  commenterId : Option Nat
  teamId : Option Nat
  inviterId : Option Nat
deriving DecidableEq, Repr

/-- An `EventData` with every property absent. -/
def emptyEventData : EventData := ⟨none, none, none, none, none, none⟩

/-- Shape of the JSON objects `processNotification` and its helpers return:
`{ success: true, skipped: true, reason }`, `{ success: true, ... }` or
`{ success: false, error }`. -/
inductive ProcResult where
  | skippedResult (reason : String)
  | success
  | failure (msg : String)
deriving DecidableEq, Repr

/-- Embeds `processProjectSharedNotification` from
`src/docs/technical/supabase/edge-functions-setup.md` (lines 77-146): look up
the project and the sharer profile (each failed lookup is reported as a
failure result), insert one notification row for `userId`, then attempt the
email (whose failure is caught: `// Continue even if email fails`). The third
component lists the user ids an email was attempted for. -/
def processProjectSharedNotification (s : Store) (userId : Nat) (data : EventData)
    (now : Nat) : ProcResult × Store × List Nat :=
  match data.projectId, data.sharedById with
  | some projectId, some sharedById =>
    match single? (s.projects.filter (fun p => p.id == projectId)) with
    | none => (.failure "Error fetching project", s, [])
    | some projectData =>
    match single? (s.profiles.filter (fun p => p.id == sharedById)) with
    | none => (.failure "Error fetching sharer profile", s, [])
    | some sharerData =>
      let content := jsOr sharerData.full_name sharerData.username ++
        " shared project \"" ++ projectData.name ++ "\" with you"
      let s1 := { s with
        notifications := s.notifications ++
          [⟨s.nextId, userId, "project_shared", content,
            [("project_id", toString projectId),
             ("shared_by", toString sharedById),
             ("project_name", projectData.name)], false, none, now⟩],
        nextId := s.nextId + 1 }
      (.success, s1, [userId])
  | _, _ => (.failure "Error fetching project", s, [])

/-- Embeds `processCommentAddedNotification` from
`src/docs/technical/supabase/edge-functions-setup.md` (lines 150-238): look up
project, commenter profile and comment, insert one notification row for
`userId` with a 100-character comment preview in the metadata, then attempt
the email (caught on failure). -/
def processCommentAddedNotification (s : Store) (userId : Nat) (data : EventData)
    (now : Nat) : ProcResult × Store × List Nat :=
  match data.projectId, data.commentId, data.commenterId with
  | some projectId, some commentId, some commenterId =>
    match single? (s.projects.filter (fun p => p.id == projectId)) with
    | none => (.failure "Error fetching project", s, [])
    | some projectData =>
    match single? (s.profiles.filter (fun p => p.id == commenterId)) with
    | none => (.failure "Error fetching commenter profile", s, [])
    | some commenterData =>
    match single? (s.comments.filter (fun c => c.id == commentId)) with
    | none => (.failure "Error fetching comment", s, [])
    | some commentData =>
      let preview := commentData.content.take 100 ++
        (if commentData.content.length > 100 then "..." else "")
      let content := jsOr commenterData.full_name commenterData.username ++
        " commented on project \"" ++ projectData.name ++ "\""
      let s1 := { s with
        notifications := s.notifications ++
          [⟨s.nextId, userId, "comment_added", content,
            [("project_id", toString projectId),
             ("comment_id", toString commentId),
             ("commenter_id", toString commenterId),
             ("project_name", projectData.name),
             ("comment_preview", preview)], false, none, now⟩],
        nextId := s.nextId + 1 }
      (.success, s1, [userId])
  | _, _, _ => (.failure "Error fetching project", s, [])

/-- Embeds `processTeamInvitationNotification` from
`src/docs/technical/supabase/edge-functions-setup.md` (lines 241-310): look up
the team and the inviter profile, insert one notification row for `userId`,
then attempt the email (caught on failure). -/
def processTeamInvitationNotification (s : Store) (userId : Nat) (data : EventData)
    (now : Nat) : ProcResult × Store × List Nat :=
  match data.teamId, data.inviterId with
  | some teamId, some inviterId =>
    match single? (s.teams.filter (fun t => t.id == teamId)) with
    | none => (.failure "Error fetching team", s, [])
    | some teamData =>
    match single? (s.profiles.filter (fun p => p.id == inviterId)) with
    | none => (.failure "Error fetching inviter profile", s, [])
    | some inviterData =>
      let content := jsOr inviterData.full_name inviterData.username ++
        " invited you to join team \"" ++ teamData.name ++ "\""
      let s1 := { s with
        notifications := s.notifications ++
          [⟨s.nextId, userId, "team_invitation", content,
            [("team_id", toString teamId),
             ("inviter_id", toString inviterId),
             ("team_name", teamData.name)], false, none, now⟩],
        nextId := s.nextId + 1 }
      (.success, s1, [userId])
  | _, _ => (.failure "Error fetching team", s, [])

/-- Embeds `processNotification` from `src/unnamed/part_000` (lines 106-149):
resolve the recipient's preferences (defaults when absent), then gate on
`!userPrefs[type.replace('_', '')]` — for the standard underscore-containing
categories the munged key names no preference column, so the lookup is
`undefined` and the dispatch is skipped — then switch on the type. The
`system_announcement` case calls `processSystemAnnouncementNotification`,
which no source file defines; a call would throw a ReferenceError caught by
the serve wrapper, embedded as a failure result. The third component lists the
user ids an email was attempted for. -/
def processNotification (s : Store) (ty : String) (userId : Nat) (data : EventData)
    (now : Nat) : ProcResult × Store × List Nat :=
  let userPrefs := getUserPrefs s userId
  if !(jsTruthy (prefsLookup userPrefs (jsReplaceFirstUnderscore ty))) then
    (.skippedResult "Notification type disabled by user", s, [])
  else if ty = "project_shared" then processProjectSharedNotification s userId data now
  else if ty = "comment_added" then processCommentAddedNotification s userId data now
  else if ty = "team_invitation" then processTeamInvitationNotification s userId data now
  else if ty = "system_announcement" then
    (.failure "processSystemAnnouncementNotification is not defined", s, [])
  else (.failure "Unknown notification type", s, [])

/-- The ordering used by `order('created_at', { ascending: false })`:
newest (largest `created_at`) first. -/
def newestFirst (a b : NotificationRow) : Prop := b.created_at ≤ a.created_at

instance : DecidableRel newestFirst :=
  fun a b => inferInstanceAs (Decidable (b.created_at ≤ a.created_at))

instance : IsTotal NotificationRow newestFirst :=
  ⟨fun a b => Nat.le_total b.created_at a.created_at⟩

instance : IsTrans NotificationRow newestFirst :=
  ⟨fun _ _ _ hab hbc => Nat.le_trans hbc hab⟩

/-- Embeds `fetchNotifications` from the `useNotifications` hook in
`src/unnamed/part_000` (lines 304-314): the recipient's rows with
`deleted_at` null, ordered by `created_at` descending, limited to 20. -/
def fetchNotifications (s : Store) (userId : Nat) : List NotificationRow :=
  (((s.notifications.filter (fun n => n.user_id == userId && n.deleted_at == none)).insertionSort
    newestFirst).take 20)

/-- Embeds `markAsRead` from `src/unnamed/part_000` (lines 317-321):
`update({ read: true }).eq('id', notificationId)`. -/
def markAsRead (s : Store) (notificationId : Nat) : Store :=
  { s with notifications := s.notifications.map (fun n =>
      if n.id == notificationId then { n with read := true } else n) }

/-- Embeds `markAllAsRead` from `src/unnamed/part_000` (lines 323-331):
`update({ read: true }).eq('user_id', user.id).is('read', false)` — note that
no `deleted_at` condition appears, so soft-deleted unread rows are updated
too, and the call requests no affected-row count. -/
def markAllAsRead (s : Store) (userId : Nat) : Store :=
  { s with notifications := s.notifications.map (fun n =>
      if n.user_id == userId && n.read == false then { n with read := true } else n) }

/-- Embeds `deleteNotification` from `src/unnamed/part_000` (lines 333-338):
`update({ deleted_at: new Date().toISOString() }).eq('id', notificationId)`. -/
def deleteNotification (s : Store) (notificationId : Nat) (now : Nat) : Store :=
  { s with notifications := s.notifications.map (fun n =>
      if n.id == notificationId then { n with deleted_at := some now } else n) }

/-- Filtering commutes with mapping a function that does not change the
predicate's verdict on any element. -/
theorem filter_map_pred_inv {α : Type} (f : α → α) (p : α → Bool)
    (h : ∀ a, p (f a) = p a) : ∀ l : List α, (l.map f).filter p = (l.filter p).map f := by
  intro l
  induction l with
  | nil => rfl
  | cons a t ih =>
    simp only [List.map_cons, List.filter_cons, h a]
    cases hpa : p a <;> simp [hpa, ih]

/-- C1: calling the grant upsert (`addProjectAccess`) twice for the same
(project, grantee) pair — starting from a store with no grant for the pair —
returns `updated = false` then `updated = true`, and leaves exactly one
`project_access` row for the pair, whose level is the second level written
(last write wins). -/
theorem C1_upsert_last_write_wins (s : Store) (pid : Nat) (email : String)
    (l1 l2 : AccessLevel) (t1 t2 : Nat) (u : Profile)
    (hu : s.profiles.filter (fun p => p.username == email) = [u])
    (h0 : ∀ a ∈ s.project_access, ¬(a.project_id = pid ∧ a.user_id = u.id)) :
    ∃ s1 s2,
      addProjectAccess s pid email l1 t1 = .ok (⟨false, true⟩, s1) ∧
      addProjectAccess s1 pid email l2 t2 = .ok (⟨true, false⟩, s2) ∧
      (s2.project_access.filter (fun a => a.project_id == pid && a.user_id == u.id)).length = 1 ∧
      ∀ a ∈ s2.project_access, a.project_id = pid → a.user_id = u.id → a.access_level = l2 := by
  have hfil : s.project_access.filter (fun a => a.project_id == pid && a.user_id == u.id) = [] := by
    rw [List.filter_eq_nil_iff]
    intro a ha hcontra
    exact h0 a ha (by simpa [Bool.and_eq_true, beq_iff_eq] using hcontra)
  have e1 : addProjectAccess s pid email l1 t1 =
      .ok (⟨false, true⟩,
        { s with
          project_access :=
            s.project_access ++ [(⟨s.nextId, pid, u.id, l1, t1, t1⟩ : AccessRow)],
          nextId := s.nextId + 1 }) := by
    simp only [addProjectAccess, hu, single?]
    rw [hfil]
  have hfil2 :
      (s.project_access ++ [(⟨s.nextId, pid, u.id, l1, t1, t1⟩ : AccessRow)]).filter
        (fun a => a.project_id == pid && a.user_id == u.id) =
      [(⟨s.nextId, pid, u.id, l1, t1, t1⟩ : AccessRow)] := by
    rw [List.filter_append, hfil]
    simp
  have e2 : addProjectAccess
      { s with
        project_access :=
          s.project_access ++ [(⟨s.nextId, pid, u.id, l1, t1, t1⟩ : AccessRow)],
        nextId := s.nextId + 1 } pid email l2 t2 =
      .ok (⟨true, false⟩,
        { s with
          project_access :=
            (s.project_access ++ [(⟨s.nextId, pid, u.id, l1, t1, t1⟩ : AccessRow)]).map
              (fun a => if a.id == s.nextId then { a with access_level := l2, updated_at := t2 }
                else a),
          nextId := s.nextId + 1 }) := by
    simp only [addProjectAccess, hu, single?]
    rw [hfil2]
  have hinv : ∀ a : AccessRow,
      (((fun a => if a.id == s.nextId then { a with access_level := l2, updated_at := t2 }
        else a) a).project_id == pid &&
        ((fun a => if a.id == s.nextId then { a with access_level := l2, updated_at := t2 }
          else a) a).user_id == u.id) =
      (a.project_id == pid && a.user_id == u.id) := by
    intro a
    by_cases h : a.id == s.nextId <;> simp [h]
  refine ⟨_, _, e1, e2, ?_, ?_⟩
  · rw [filter_map_pred_inv _ _ hinv, hfil2]
    rfl
  · intro a ha hpidEq huidEq
    have hmem : a ∈
        ((s.project_access ++ [(⟨s.nextId, pid, u.id, l1, t1, t1⟩ : AccessRow)]).map
          (fun a => if a.id == s.nextId then { a with access_level := l2, updated_at := t2 }
            else a)).filter (fun a => a.project_id == pid && a.user_id == u.id) :=
      List.mem_filter.mpr ⟨ha, by simp [hpidEq, huidEq]⟩
    rw [filter_map_pred_inv _ _ hinv, hfil2] at hmem
    simp only [List.map_cons, List.map_nil, List.mem_singleton] at hmem
    rw [hmem]
    simp

/-- Profile used in the concrete witness stores. -/
def aliceProfile : Profile := ⟨2, "alice@x.com", none, "alice@x.com"⟩

/-- Concrete store for the C1 witness: one profile, one project, no grants. -/
def w1store : Store :=
  { emptyStore with
    profiles := [aliceProfile], projects := [⟨10, "Blog", 1, false⟩], nextId := 100 }

/-- Witness for C1 at a concrete store: both hypotheses hold and the two
upserts behave as proved. -/
theorem C1_upsert_last_write_wins_witness :
    ((w1store.profiles.filter (fun p => p.username == "alice@x.com") = [aliceProfile]) ∧
      (∀ a ∈ w1store.project_access, ¬(a.project_id = 10 ∧ a.user_id = aliceProfile.id))) ∧
    (∃ s1 s2,
      addProjectAccess w1store 10 "alice@x.com" .view 5 = .ok (⟨false, true⟩, s1) ∧
      addProjectAccess s1 10 "alice@x.com" .edit 6 = .ok (⟨true, false⟩, s2) ∧
      (s2.project_access.filter
        (fun a => a.project_id == 10 && a.user_id == aliceProfile.id)).length = 1 ∧
      ∀ a ∈ s2.project_access,
        a.project_id = 10 → a.user_id = aliceProfile.id → a.access_level = .edit) :=
  ⟨⟨by decide, by decide⟩,
    C1_upsert_last_write_wins w1store 10 "alice@x.com" .view .edit 5 6 aliceProfile
      (by decide) (by decide)⟩

/-- Profile of the project owner used in the C3 counterexample store. -/
def ownerProfile : Profile := ⟨1, "owner@x.com", some "Owner O", "owner@x.com"⟩

/-- Concrete store for C3: the only profile is the owner of project 10. -/
def c3store : Store :=
  { emptyStore with
    profiles := [ownerProfile], projects := [⟨10, "Blog", 1, false⟩], nextId := 50 }

/-- The store `addProjectAccess` produces when the owner grants themselves. -/
def c3after : Store :=
  { c3store with project_access := [⟨50, 10, 1, .edit, 5, 5⟩], nextId := 51 }

/-- C3 counterexample: granting the project's own owner is NOT rejected —
`addProjectAccess` succeeds (no `InvalidGrant` error exists in the code) and
leaves a `project_access` row whose grantee is the owner of the project. -/
theorem C3_counterexample :
    (∃ p ∈ c3store.projects, p.id = 10 ∧ p.user_id = ownerProfile.id) ∧
    addProjectAccess c3store 10 "owner@x.com" AccessLevel.edit 5 =
      .ok (⟨false, true⟩, c3after) ∧
    ∃ a ∈ c3after.project_access, a.project_id = 10 ∧ a.user_id = ownerProfile.id := by
  refine ⟨by decide, ?_, by decide⟩
  rfl

/-- C3 as amended: `addProjectAccess` performs no owner check at all — whenever
the grantee email resolves to a profile (even the project owner's own profile),
the upsert succeeds and the resulting store contains a `project_access` row
naming that profile as grantee. -/
theorem C3_no_owner_check (s : Store) (pid : Nat) (email : String) (lvl : AccessLevel)
    (now : Nat) (u : Profile)
    (hu : s.profiles.filter (fun p => p.username == email) = [u]) :
    ∃ r s', addProjectAccess s pid email lvl now = .ok (r, s') ∧
      ∃ a ∈ s'.project_access, a.project_id = pid ∧ a.user_id = u.id := by
  cases hex : s.project_access.filter (fun a => a.project_id == pid && a.user_id == u.id) with
  | nil =>
    have e : addProjectAccess s pid email lvl now =
        .ok (⟨false, true⟩,
          { s with
            project_access :=
              s.project_access ++ [(⟨s.nextId, pid, u.id, lvl, now, now⟩ : AccessRow)],
            nextId := s.nextId + 1 }) := by
      simp only [addProjectAccess, hu, single?]
      rw [hex]
    exact ⟨_, _, e, (⟨s.nextId, pid, u.id, lvl, now, now⟩ : AccessRow), by simp, rfl, rfl⟩
  | cons a0 t =>
    have e : addProjectAccess s pid email lvl now =
        .ok (⟨true, false⟩,
          { s with
            project_access := s.project_access.map (fun a =>
              if a.id == a0.id then { a with access_level := lvl, updated_at := now }
              else a) }) := by
      simp only [addProjectAccess, hu, single?]
      rw [hex]
    have ha0fil : a0 ∈ s.project_access.filter
        (fun a => a.project_id == pid && a.user_id == u.id) := by
      rw [hex]
      exact List.mem_cons_self a0 t
    have ha0mem : a0 ∈ s.project_access := List.mem_of_mem_filter ha0fil
    have ha0pair : a0.project_id = pid ∧ a0.user_id = u.id := by
      have := List.of_mem_filter ha0fil
      simpa [Bool.and_eq_true, beq_iff_eq] using this
    refine ⟨_, _, e,
      (if a0.id == a0.id then { a0 with access_level := lvl, updated_at := now } else a0),
      List.mem_map_of_mem _ ha0mem, ?_, ?_⟩
    · simpa using ha0pair.1
    · simpa using ha0pair.2

/-- Witness for the amended C3 at the concrete counterexample store: the
owner's own email resolves, and the upsert succeeds leaving an owner-grant. -/
theorem C3_no_owner_check_witness :
    (c3store.profiles.filter (fun p => p.username == "owner@x.com") = [ownerProfile]) ∧
    (∃ r s', addProjectAccess c3store 10 "owner@x.com" AccessLevel.edit 5 = .ok (r, s') ∧
      ∃ a ∈ s'.project_access, a.project_id = 10 ∧ a.user_id = ownerProfile.id) :=
  ⟨by decide, C3_no_owner_check c3store 10 "owner@x.com" AccessLevel.edit 5 ownerProfile
    (by decide)⟩

/-- C10: `removeProjectAccess` returns `true` whenever the delete reports no
error — in particular when no grant with the given id exists, in which case it
succeeds silently (no NotFound error) and the store is unchanged. -/
theorem C10_remove_nonexistent (s : Store) (accessId : Nat) :
    (removeProjectAccess s accessId).1 = true ∧
    ((∀ a ∈ s.project_access, a.id ≠ accessId) → removeProjectAccess s accessId = (true, s)) := by
  refine ⟨rfl, ?_⟩
  intro h
  unfold removeProjectAccess
  have hkeep : s.project_access.filter (fun a => !(a.id == accessId)) = s.project_access :=
    List.filter_eq_self.mpr (by
      intro a ha
      simpa using h a ha)
  rw [hkeep]

/-- Concrete store for the C10 witness: one grant with an id other than 99. -/
def w10store : Store :=
  { emptyStore with project_access := [⟨20, 10, 2, .view, 0, 0⟩], nextId := 21 }

/-- Witness for C10: removing the nonexistent grant 99 succeeds and leaves the
store unchanged. -/
theorem C10_remove_nonexistent_witness :
    (∀ a ∈ w10store.project_access, a.id ≠ 99) ∧
    removeProjectAccess w10store 99 = (true, w10store) :=
  ⟨by decide, (C10_remove_nonexistent w10store 99).2 (by decide)⟩

/-- C2: for a principal who is not the project's owner and holds no grant on
it, `check_project_access` returns `false` unless the project is flagged
public — the unmatched case denies (fail-closed). -/
theorem C2_fail_closed (s : Store) (pid uid : Nat)
    (hOwner : ∀ p ∈ s.projects, p.id = pid → p.user_id ≠ uid)
    (hPublic : ∀ p ∈ s.projects, p.id = pid → p.is_public = false)
    (hGrant : ∀ pa ∈ s.project_access, ¬(pa.project_id = pid ∧ pa.user_id = uid)) :
    check_project_access s pid uid = false := by
  unfold check_project_access
  rw [List.any_eq_false]
  intro p hp
  by_cases hid : p.id = pid
  · have h1 := hOwner p hp hid
    have h2 := hPublic p hp hid
    have h3 : s.project_access.any
        (fun pa => pa.project_id == pid && pa.user_id == uid) = false := by
      rw [List.any_eq_false]
      intro pa hpa
      simpa [Bool.and_eq_true, beq_iff_eq] using hGrant pa hpa
    simp [hid, h1, h2, h3]
  · simp [hid]

/-- Concrete store for the C2 witness: project 10 owned by 1, not public, with
a single grant to user 2; the check is for user 3. -/
def w2store : Store :=
  { emptyStore with
    projects := [⟨10, "Blog", 1, false⟩],
    project_access := [⟨20, 10, 2, .edit, 0, 0⟩], nextId := 21 }

/-- Witness for C2: user 3 is not the owner, holds no grant, the project is
not public, and the check denies. -/
theorem C2_fail_closed_witness :
    ((∀ p ∈ w2store.projects, p.id = 10 → p.user_id ≠ 3) ∧
      (∀ p ∈ w2store.projects, p.id = 10 → p.is_public = false) ∧
      (∀ pa ∈ w2store.project_access, ¬(pa.project_id = 10 ∧ pa.user_id = 3))) ∧
    check_project_access w2store 10 3 = false :=
  ⟨⟨by decide, by decide, by decide⟩,
    C2_fail_closed w2store 10 3 (by decide) (by decide) (by decide)⟩

/-- Profile of the grantee used in the C4 concrete store. -/
def bobProfile : Profile := ⟨2, "bob", none, "bob@x.com"⟩

/-- Concrete store for C4: owner 1, recipient 2, project 10. -/
def c4store : Store :=
  { emptyStore with
    profiles := [ownerProfile, bobProfile],
    projects := [⟨10, "Blog", 1, false⟩], nextId := 70 }

/-- An email service whose every send fails (non-ok response). -/
def emailAlwaysFail : String → Bool := fun _ => false

/-- C4 at the failing input: when the email send fails, the already-inserted
notification row for the recipient is NOT rolled back, but — contrary to the
claim — the handler RAISES (`sendEmailNotification` throws and
`handleProjectSharedNotification` has no try/catch), so the dispatch call
errors instead of recording the failure in a per-recipient result. -/
theorem C4_email_failure_raises_after_insert :
    ∃ e s' em,
      handleProjectSharedNotification c4store emailAlwaysFail ⟨10, 2, 1, "edit"⟩ 9 =
        (.error e, s', em) ∧
      ∃ n ∈ s'.notifications, n.user_id = 2 ∧ n.type = "project_shared" := by
  refine ⟨_, _, _, rfl, ?_⟩
  decide

/-- Preference row of the C5 recipient: `project_sharing` off, email on. -/
def alicePrefs : PrefRow := ⟨2, true, true, false, true, true, true⟩

/-- Concrete store for C5: recipient 2 with `project_sharing = false`,
`email_notifications = true`; project and sharer present. -/
def c5store : Store :=
  { emptyStore with
    profiles := [ownerProfile, aliceProfile],
    projects := [⟨10, "Blog", 1, false⟩],
    user_notification_preferences := [alicePrefs], nextId := 80 }

/-- Payload of the C5 dispatch. -/
def c5data : EventData := { emptyEventData with projectId := some 10, sharedById := some 1 }

/-- C5 counterexample: with the category toggle off and the email toggle ON,
`processNotification` returns the skipped result, inserts nothing — and
attempts NO email (empty attempt list), contradicting the claim that email
delivery is still evaluated independently. -/
theorem C5_counterexample :
    (getUserPrefs c5store 2).project_sharing = false ∧
    (getUserPrefs c5store 2).email_notifications = true ∧
    processNotification c5store "project_shared" 2 c5data 9 =
      (.skippedResult "Notification type disabled by user", c5store, []) := by
  refine ⟨by decide, by decide, ?_⟩
  rfl

/-- C5 as amended: a `project_shared` dispatch to a recipient whose stored
`project_sharing` toggle is false is recorded as skipped-by-preference, with
no notification row persisted and NO email attempted — email gating is never
reached. (The skip in fact fires for every standard category, because
`type.replace('_', '')` yields a key that names no preference column.) -/
theorem C5_skip_no_email (s : Store) (uid : Nat) (data : EventData) (now : Nat)
    (r : PrefRow)
    (hr : s.user_notification_preferences.filter (fun q => q.user_id == uid) = [r])
    (hoff : r.project_sharing = false) :
    processNotification s "project_shared" uid data now =
      (.skippedResult "Notification type disabled by user", s, []) := by
  have hp : getUserPrefs s uid = r := by
    unfold getUserPrefs
    rw [hr]
    rfl
  have hkey : prefsLookup r (jsReplaceFirstUnderscore "project_shared") = none := by
    have hmunge : jsReplaceFirstUnderscore "project_shared" = "projectshared" := by decide
    rw [hmunge]
    simp [prefsLookup]
  simp only [processNotification]
  rw [hp, hkey]
  rfl

/-- Witness for the amended C5 at the concrete store. -/
theorem C5_skip_no_email_witness :
    ((c5store.user_notification_preferences.filter (fun q => q.user_id == 2) = [alicePrefs]) ∧
      alicePrefs.project_sharing = false) ∧
    processNotification c5store "project_shared" 2 c5data 9 =
      (.skippedResult "Notification type disabled by user", c5store, []) :=
  ⟨⟨by decide, rfl⟩, C5_skip_no_email c5store 2 c5data 9 alicePrefs (by decide) rfl⟩

/-- `processProjectSharedNotification` never touches the preferences table. -/
theorem processProjectSharedNotification_prefs (s : Store) (uid : Nat)
    (data : EventData) (now : Nat) :
    (processProjectSharedNotification s uid data now).2.1.user_notification_preferences =
      s.user_notification_preferences := by
  unfold processProjectSharedNotification
  repeat' split
  all_goals rfl

/-- `processCommentAddedNotification` never touches the preferences table. -/
theorem processCommentAddedNotification_prefs (s : Store) (uid : Nat)
    (data : EventData) (now : Nat) :
    (processCommentAddedNotification s uid data now).2.1.user_notification_preferences =
      s.user_notification_preferences := by
  unfold processCommentAddedNotification
  repeat' split
  all_goals rfl

/-- `processTeamInvitationNotification` never touches the preferences table. -/
theorem processTeamInvitationNotification_prefs (s : Store) (uid : Nat)
    (data : EventData) (now : Nat) :
    (processTeamInvitationNotification s uid data now).2.1.user_notification_preferences =
      s.user_notification_preferences := by
  unfold processTeamInvitationNotification
  repeat' split
  all_goals rfl

/-- C7: for a principal with no stored preference row, `getUserPrefs` returns
the all-enabled default object, and resolving preferences writes nothing: a raw
read of the preferences table still finds no row, and no `processNotification`
dispatch ever changes the preferences table. -/
theorem C7_default_prefs_no_write (s : Store) (uid : Nat)
    (h : ∀ r ∈ s.user_notification_preferences, r.user_id ≠ uid) :
    getUserPrefs s uid = ⟨uid, true, true, true, true, true, true⟩ ∧
    s.user_notification_preferences.filter (fun r => r.user_id == uid) = [] ∧
    ∀ ty data now,
      (processNotification s ty uid data now).2.1.user_notification_preferences =
        s.user_notification_preferences := by
  have hfil : s.user_notification_preferences.filter (fun r => r.user_id == uid) = [] := by
    rw [List.filter_eq_nil_iff]
    intro r hr hcontra
    exact h r hr (by simpa using hcontra)
  refine ⟨?_, hfil, ?_⟩
  · unfold getUserPrefs
    rw [hfil]
    rfl
  · intro ty data now
    unfold processNotification
    dsimp only
    repeat' split
    all_goals
      first
        | rfl
        | apply processProjectSharedNotification_prefs
        | apply processCommentAddedNotification_prefs
        | apply processTeamInvitationNotification_prefs

/-- Concrete store for the C7 witness: the only stored preference row belongs
to user 5; user 2 has none. -/
def w7store : Store :=
  { emptyStore with
    user_notification_preferences := [⟨5, false, false, false, false, false, false⟩],
    nextId := 90 }

/-- Witness for C7: user 2 has no stored row, resolution yields the all-true
defaults and the preferences table stays empty of rows for user 2. -/
theorem C7_default_prefs_no_write_witness :
    (∀ r ∈ w7store.user_notification_preferences, r.user_id ≠ 2) ∧
    (getUserPrefs w7store 2 = ⟨2, true, true, true, true, true, true⟩ ∧
      w7store.user_notification_preferences.filter (fun r => r.user_id == 2) = [] ∧
      ∀ ty data now,
        (processNotification w7store ty 2 data now).2.1.user_notification_preferences =
          w7store.user_notification_preferences) :=
  ⟨by decide, C7_default_prefs_no_write w7store 2 (by decide)⟩

/-- The user ids of the rows `insertNotificationRows` appends are exactly the
given recipient list, in order. -/
theorem insertNotificationRows_user_ids (uids : List Nat) :
    ∀ (s : Store) (ty content : String) (md : List (String × String)) (now : Nat),
      (insertNotificationRows s uids ty content md now).notifications.map
          (fun n => n.user_id) =
        s.notifications.map (fun n => n.user_id) ++ uids := by
  induction uids with
  | nil =>
    intro s ty content md now
    simp [insertNotificationRows]
  | cons u rest ih =>
    intro s ty content md now
    simp only [insertNotificationRows]
    rw [ih]
    simp

/-- Counting a recipient's rows equals counting their id in the projected
user-id list. -/
theorem filter_userId_length_eq_count (l : List NotificationRow) (v : Nat) :
    (l.filter (fun n => n.user_id == v)).length = (l.map (fun n => n.user_id)).count v := by
  induction l with
  | nil => rfl
  | cons n t ih =>
    simp only [List.filter_cons, List.map_cons, List.count_cons]
    by_cases h : n.user_id = v
    · simp [h, ih]
    · have h2 : ¬(v = n.user_id) := fun hh => h hh.symm
      simp [h, h2, ih]

/-- Concrete store for the C6 counterexample: the owner of project 10 also
holds a grant on their own project — a state `addProjectAccess` permits, since
it never rejects the owner as grantee — alongside grantee 2, who comments. -/
def c6xstore : Store :=
  { emptyStore with
    profiles := [⟨1, "owner", some "Owner O", "o@x.com"⟩,
      ⟨2, "alice", none, "alice@x.com"⟩],
    projects := [⟨10, "Blog", 1, false⟩],
    project_access := [⟨21, 10, 1, .edit, 0, 0⟩, ⟨22, 10, 2, .view, 0, 0⟩],
    comments := [⟨7, "hi"⟩],
    nextId := 40 }

/-- C6 counterexample: in a reachable store where a grant names the project
owner as grantee, a `comment_added` dispatch by the other grantee resolves the
owner into `notifyUserIds` twice (once as owner, once via the grant row) and
inserts TWO notification rows for the owner, falsifying the claim that one
notification row is inserted per resolved recipient. -/
theorem C6_counterexample :
    (∃ a ∈ c6xstore.project_access, a.project_id = 10 ∧ a.user_id = 1) ∧
    (∀ p ∈ c6xstore.projects, p.id = 10 → p.user_id = 1) ∧
    (c6xstore.notifications.filter (fun n => n.user_id == 1)).length = 0 ∧
    ∃ res s' emails,
      handleCommentAddedNotification c6xstore (fun _ => true) ⟨10, 7, 2⟩ 9 =
        (res, s', emails) ∧
      (s'.notifications.filter (fun n => n.user_id == 1)).length = 2 := by
  refine ⟨by decide, by decide, by decide, _, _, _, rfl, ?_⟩
  decide

/-- C6 as amended: for a `comment_added` dispatch, the resolved recipient LIST
is the project owner followed by every grantee on the project, with the
entries of the commenting actor removed — as a set exactly the owner together with
the grantees, minus the actor — and one notification row is inserted per
OCCURRENCE in that list, so a principal appearing both as owner and as grantee
(which the code permits) receives duplicate rows; when the owner and the
grantee ids are pairwise distinct, this is exactly one row per resolved
recipient, whatever the email outcomes. -/
theorem C6_comment_fanout (s : Store) (emailOk : String → Bool)
    (d : CommentEventData) (now : Nat)
    (project : ProjectRow) (comment : CommentRow) (commentor : Profile)
    (hp : s.projects.filter (fun p => p.id == d.projectId) = [project])
    (hc : s.comments.filter (fun c => c.id == d.commentId) = [comment])
    (hu : s.profiles.filter (fun p => p.id == d.commentorUserId) = [commentor]) :
    ∃ res s' emails,
      handleCommentAddedNotification s emailOk d now = (res, s', emails) ∧
      (∀ v, v ∈ (project.user_id ::
          (s.project_access.filter (fun a => a.project_id == d.projectId)).map
            (fun a => a.user_id)).filter (fun i => !(i == d.commentorUserId)) ↔
        ((v = project.user_id ∨
            v ∈ (s.project_access.filter (fun a => a.project_id == d.projectId)).map
              (fun a => a.user_id)) ∧ v ≠ d.commentorUserId)) ∧
      s'.notifications.map (fun n => n.user_id) =
        s.notifications.map (fun n => n.user_id) ++
          (project.user_id ::
            (s.project_access.filter (fun a => a.project_id == d.projectId)).map
              (fun a => a.user_id)).filter (fun i => !(i == d.commentorUserId)) ∧
      (∀ v, (s'.notifications.filter (fun n => n.user_id == v)).length =
        (s.notifications.filter (fun n => n.user_id == v)).length +
          ((project.user_id ::
            (s.project_access.filter (fun a => a.project_id == d.projectId)).map
              (fun a => a.user_id)).filter (fun i => !(i == d.commentorUserId))).count v) ∧
      ((project.user_id ::
          (s.project_access.filter (fun a => a.project_id == d.projectId)).map
            (fun a => a.user_id)).Nodup →
        ∀ v, (s'.notifications.filter (fun n => n.user_id == v)).length =
          (s.notifications.filter (fun n => n.user_id == v)).length +
            (if (v = project.user_id ∨
                v ∈ (s.project_access.filter (fun a => a.project_id == d.projectId)).map
                  (fun a => a.user_id)) ∧ v ≠ d.commentorUserId
              then 1 else 0)) := by
  have key1 : ∀ v, v ∈ (project.user_id ::
      (s.project_access.filter (fun a => a.project_id == d.projectId)).map
        (fun a => a.user_id)).filter (fun i => !(i == d.commentorUserId)) ↔
      ((v = project.user_id ∨
          v ∈ (s.project_access.filter (fun a => a.project_id == d.projectId)).map
            (fun a => a.user_id)) ∧ v ≠ d.commentorUserId) := by
    intro v
    simp [List.mem_filter]
  obtain ⟨C, M, e21⟩ : ∃ C M, (handleCommentAddedNotification s emailOk d now).2.1 =
      insertNotificationRows s
        ((project.user_id ::
          (s.project_access.filter (fun a => a.project_id == d.projectId)).map
            (fun a => a.user_id)).filter (fun i => !(i == d.commentorUserId)))
        "comment_added" C M now := by
    refine ⟨commentor.username ++ " commented on \"" ++ project.name ++ "\": \"" ++
      (if comment.content.length > 50 then comment.content.take 50 ++ "..."
        else comment.content) ++ "\"",
      [("project_id", toString d.projectId),
       ("comment_id", toString d.commentId),
       ("commentor_id", toString d.commentorUserId)], ?_⟩
    simp only [handleCommentAddedNotification, hp, hc, hu, single?]
    split
    · rfl
    · rfl
  have key2 : (handleCommentAddedNotification s emailOk d now).2.1.notifications.map
      (fun n => n.user_id) =
      s.notifications.map (fun n => n.user_id) ++
        (project.user_id ::
          (s.project_access.filter (fun a => a.project_id == d.projectId)).map
            (fun a => a.user_id)).filter (fun i => !(i == d.commentorUserId)) := by
    rw [e21, insertNotificationRows_user_ids]
  refine ⟨(handleCommentAddedNotification s emailOk d now).1,
    (handleCommentAddedNotification s emailOk d now).2.1,
    (handleCommentAddedNotification s emailOk d now).2.2, rfl, key1, key2, ?_, ?_⟩
  · intro v
    rw [filter_userId_length_eq_count, filter_userId_length_eq_count, key2,
      List.count_append]
  · intro hnd v
    have hndr : ((project.user_id ::
        (s.project_access.filter (fun a => a.project_id == d.projectId)).map
          (fun a => a.user_id)).filter (fun i => !(i == d.commentorUserId))).Nodup :=
      hnd.filter _
    rw [filter_userId_length_eq_count, filter_userId_length_eq_count, key2,
      List.count_append]
    by_cases hv : v ∈ (project.user_id ::
        (s.project_access.filter (fun a => a.project_id == d.projectId)).map
          (fun a => a.user_id)).filter (fun i => !(i == d.commentorUserId))
    · rw [List.count_eq_one_of_mem hndr hv, if_pos ((key1 v).mp hv)]
    · rw [List.count_eq_zero.mpr hv, if_neg (fun hcond => hv ((key1 v).mpr hcond))]

/-- Concrete store for the C6 witness: project 10 owned by 1, grants to 2 and
3, a comment by 2. -/
def c6store : Store :=
  { emptyStore with
    profiles := [⟨1, "owner", some "Owner O", "o@x.com"⟩,
      ⟨2, "alice", none, "alice@x.com"⟩, ⟨3, "bob", none, "bob@x.com"⟩],
    projects := [⟨10, "Blog", 1, false⟩],
    project_access := [⟨21, 10, 2, .edit, 0, 0⟩, ⟨22, 10, 3, .view, 0, 0⟩],
    comments := [⟨7, "hello world"⟩],
    nextId := 40 }

/-- The C6 witness dispatch payload: comment 7 on project 10 by actor 2. -/
def c6data : CommentEventData := ⟨10, 7, 2⟩

/-- The project row the C6 witness resolves. -/
def c6project : ProjectRow := ⟨10, "Blog", 1, false⟩

/-- The comment row the C6 witness resolves. -/
def c6comment : CommentRow := ⟨7, "hello world"⟩

/-- The commentor profile the C6 witness resolves. -/
def c6commentor : Profile := ⟨2, "alice", none, "alice@x.com"⟩

/-- Witness for the amended C6 at the concrete store: the three lookup
hypotheses hold and the recipients resolve to owner 1 and grantee 3,
excluding actor 2, one row each. -/
theorem C6_comment_fanout_witness :
    ((c6store.projects.filter (fun p => p.id == c6data.projectId) = [c6project]) ∧
      (c6store.comments.filter (fun c => c.id == c6data.commentId) = [c6comment]) ∧
      (c6store.profiles.filter (fun p => p.id == c6data.commentorUserId) = [c6commentor])) ∧
    (∃ res s' emails,
      handleCommentAddedNotification c6store (fun _ => true) c6data 9 = (res, s', emails) ∧
      (∀ v, v ∈ (c6project.user_id ::
          (c6store.project_access.filter (fun a => a.project_id == c6data.projectId)).map
            (fun a => a.user_id)).filter (fun i => !(i == c6data.commentorUserId)) ↔
        ((v = c6project.user_id ∨
            v ∈ (c6store.project_access.filter (fun a => a.project_id == c6data.projectId)).map
              (fun a => a.user_id)) ∧ v ≠ c6data.commentorUserId)) ∧
      s'.notifications.map (fun n => n.user_id) =
        c6store.notifications.map (fun n => n.user_id) ++
          (c6project.user_id ::
            (c6store.project_access.filter (fun a => a.project_id == c6data.projectId)).map
              (fun a => a.user_id)).filter (fun i => !(i == c6data.commentorUserId)) ∧
      (∀ v, (s'.notifications.filter (fun n => n.user_id == v)).length =
        (c6store.notifications.filter (fun n => n.user_id == v)).length +
          ((c6project.user_id ::
            (c6store.project_access.filter (fun a => a.project_id == c6data.projectId)).map
              (fun a => a.user_id)).filter (fun i => !(i == c6data.commentorUserId))).count v) ∧
      ((c6project.user_id ::
          (c6store.project_access.filter (fun a => a.project_id == c6data.projectId)).map
            (fun a => a.user_id)).Nodup →
        ∀ v, (s'.notifications.filter (fun n => n.user_id == v)).length =
          (c6store.notifications.filter (fun n => n.user_id == v)).length +
            (if (v = c6project.user_id ∨
                v ∈ (c6store.project_access.filter (fun a => a.project_id == c6data.projectId)).map
                  (fun a => a.user_id)) ∧ v ≠ c6data.commentorUserId
              then 1 else 0))) :=
  ⟨⟨by decide, by decide, by decide⟩,
    C6_comment_fanout c6store (fun _ => true) c6data 9 c6project c6comment c6commentor
      (by decide) (by decide) (by decide)⟩

/-- Mapping a function that fixes every element of a list leaves it unchanged. -/
theorem map_id_of_eq {α : Type} (f : α → α) :
    ∀ l : List α, (∀ a ∈ l, f a = a) → l.map f = l := by
  intro l
  induction l with
  | nil => intro _; rfl
  | cons a t ih =>
    intro h
    simp only [List.map_cons, h a (List.mem_cons_self a t),
      ih (fun b hb => h b (List.mem_cons_of_mem a hb))]

/-- C8: after `deleteNotification` the listing never includes the soft-deleted
notification; `fetchNotifications` returns only the recipient's active rows,
sorted newest-first, and capped at 20. -/
theorem C8_list_excludes_deleted (s : Store) (nid now uid : Nat) :
    (∀ n ∈ fetchNotifications (deleteNotification s nid now) uid, n.id ≠ nid) ∧
    (∀ n ∈ fetchNotifications s uid, n.user_id = uid ∧ n.deleted_at = none) ∧
    (fetchNotifications s uid).Pairwise newestFirst ∧
    (fetchNotifications s uid).length ≤ 20 := by
  have hmemchain : ∀ (t : Store) (n : NotificationRow), n ∈ fetchNotifications t uid →
      n ∈ t.notifications ∧ n.user_id = uid ∧ n.deleted_at = none := by
    intro t n hn
    unfold fetchNotifications at hn
    have h1 : n ∈ (t.notifications.filter
        (fun n => n.user_id == uid && n.deleted_at == none)).insertionSort newestFirst :=
      (List.take_sublist _ _).mem hn
    have h2 : n ∈ t.notifications.filter
        (fun n => n.user_id == uid && n.deleted_at == none) :=
      (List.perm_insertionSort newestFirst _).mem_iff.mp h1
    refine ⟨List.mem_of_mem_filter h2, ?_⟩
    have h3 := List.of_mem_filter h2
    simpa [Bool.and_eq_true, beq_iff_eq] using h3
  refine ⟨?_, ?_, ?_, ?_⟩
  · intro n hn
    obtain ⟨hmem, _, hact⟩ := hmemchain _ n hn
    unfold deleteNotification at hmem
    obtain ⟨m, hm, hfm⟩ := List.mem_map.mp hmem
    by_cases hmid : (m.id == nid) = true
    · rw [if_pos hmid] at hfm
      rw [← hfm] at hact
      simp at hact
    · rw [if_neg hmid] at hfm
      rw [← hfm]
      simpa using hmid
  · intro n hn
    exact (hmemchain s n hn).2
  · have hs : ((s.notifications.filter
        (fun n => n.user_id == uid && n.deleted_at == none)).insertionSort
          newestFirst).Sorted newestFirst :=
      List.sorted_insertionSort newestFirst _
    exact hs.sublist (List.take_sublist _ _)
  · exact List.length_take_le _ _

/-- Concrete store for the C8 witness: two active rows of user 7; row 2 is then
soft-deleted. -/
def w8store : Store :=
  { emptyStore with
    notifications := [⟨1, 7, "comment_added", "c1", [], false, none, 50⟩,
      ⟨2, 7, "comment_added", "c2", [], false, none, 60⟩],
    nextId := 3 }

/-- Row 1 of the C8 witness store. -/
def w8row : NotificationRow := ⟨1, 7, "comment_added", "c1", [], false, none, 50⟩

/-- Witness for C8: after soft-deleting row 2, the surviving listing member is
row 1, whose id differs from the deleted one. -/
theorem C8_list_excludes_deleted_witness :
    (w8row ∈ fetchNotifications (deleteNotification w8store 2 99) 7) ∧ w8row.id ≠ 2 :=
  ⟨by decide, (C8_list_excludes_deleted w8store 2 99 7).1 w8row (by decide)⟩

/-- Concrete store for the C9 counterexample: user 7's only notification is
unread but soft-deleted. -/
def c9store : Store :=
  { emptyStore with
    notifications := [⟨1, 7, "comment_added", "c", [], false, some 5, 0⟩], nextId := 2 }

/-- C9 counterexample: user 7 has zero ACTIVE unread notifications, yet
`markAllAsRead` changes the store — it flips the soft-deleted unread row to
read, because the update filters only on `user_id` and `read`, never on
`deleted_at`; so the claim that exactly the active unread rows are affected
(and that nothing changes when there are none) is false. -/
theorem C9_counterexample :
    (∀ n ∈ c9store.notifications, ¬(n.user_id = 7 ∧ n.read = false ∧ n.deleted_at = none)) ∧
    markAllAsRead c9store 7 ≠ c9store := by decide

/-- C9 as amended: `markAllAsRead` sets `read := true` for exactly the unread
notifications owned by the recipient REGARDLESS of soft-deletion, leaves every
other row unchanged, and when the recipient has no unread rows at all (deleted
or not) the store is unchanged; no affected-row count is requested. -/
theorem C9_mark_all_read (s : Store) (uid : Nat) :
    ((∀ n ∈ s.notifications, n.user_id = uid → n.read = true) → markAllAsRead s uid = s) ∧
    (∀ n ∈ s.notifications, n.user_id = uid → n.read = false →
      { n with read := true } ∈ (markAllAsRead s uid).notifications) ∧
    (∀ n ∈ s.notifications, n.user_id ≠ uid → n ∈ (markAllAsRead s uid).notifications) ∧
    (∀ n ∈ (markAllAsRead s uid).notifications, n.user_id = uid → n.read = true) := by
  refine ⟨?_, ?_, ?_, ?_⟩
  · intro h
    unfold markAllAsRead
    rw [map_id_of_eq _ _ ?fix]
    case fix =>
      intro n hn
      by_cases huid : n.user_id = uid
      · simp [huid, h n hn huid]
      · simp [huid]
  · intro n hn huid hread
    unfold markAllAsRead
    have hf : (fun n => if n.user_id == uid && n.read == false then { n with read := true }
        else n) n = { n with read := true } := by
      simp [huid, hread]
    exact hf ▸ List.mem_map_of_mem _ hn
  · intro n hn huid
    unfold markAllAsRead
    have hf : (fun n => if n.user_id == uid && n.read == false then { n with read := true }
        else n) n = n := by
      simp [huid]
    exact hf ▸ List.mem_map_of_mem _ hn
  · intro n hn huid
    unfold markAllAsRead at hn
    obtain ⟨m, hm, hfm⟩ := List.mem_map.mp hn
    by_cases hc : (m.user_id == uid && m.read == false) = true
    · rw [if_pos hc] at hfm
      rw [← hfm]
    · rw [if_neg hc] at hfm
      subst hfm
      cases hr : m.read
      · exact absurd (by simp [huid, hr]) hc
      · rfl

/-- Concrete store for the C9 amended witness: user 7's only row is already
read, user 8 has an unread one. -/
def w9store : Store :=
  { emptyStore with
    notifications := [⟨1, 7, "comment_added", "c", [], true, none, 0⟩,
      ⟨2, 8, "comment_added", "c", [], false, none, 0⟩],
    nextId := 3 }

/-- Witness for the amended C9: user 7 has no unread rows, so the store is
unchanged. -/
theorem C9_mark_all_read_witness :
    (∀ n ∈ w9store.notifications, n.user_id = 7 → n.read = true) ∧
    markAllAsRead w9store 7 = w9store :=
  ⟨by decide, (C9_mark_all_read w9store 7).1 (by decide)⟩
